import Mathlib

/-!
Shallow embedding of src/pages/api/lib/statsStore.ts: a failover-aware
request-rate stats store.  The module keeps three mutable cells
(client, config, currentIndex), a circular-failover routine connect(),
error/close handlers re-installed on every connection, and a
FailoverStatsStore exposing logRequest and getStats over a Redis
sorted set under the fixed key "live:requests".

Time is wall-clock milliseconds as a natural number; JS numbers that may
go negative (the trim cutoff now - 1000) are embedded as integers.
Backend calls that may throw are driven by an explicit fault pattern: a
thrown call leaves the remote store untouched and aborts the try block,
exactly as an awaited rejection does in the source.
-/

namespace StatsStore

/-- interface RedisConfig: url, name, optional useTLS flag. -/
structure RedisConfig where
  url : String
  rname : String
  useTLS : Option Bool
  deriving DecidableEq

/-- A live ioredis handle as far as the supervisor state can observe it:
new Redis(conf.url, ...(conf.useTLS ? \x7btls:\x7b\x7d\x7d : \x7b\x7d) ...) opens
against conf.url, with TLS exactly when useTLS is truthy. -/
structure ConnHandle where
  url : String
  tls : Bool
  deriving DecidableEq

/-- The handle connect() builds from the descriptor at the chosen index. -/
def connOf (conf : RedisConfig) : ConnHandle :=
  { url := conf.url, tls := conf.useTLS == some true }

/-- The three module-level cells: let client = null, config = null,
currentIndex = -1.  currentIndex is a JS number using -1 as the
"none" sentinel, so it is embedded as an integer. -/
structure SupState where
  client : Option ConnHandle
  config : Option RedisConfig
  currentIndex : Int
  deriving DecidableEq

/-- Initial supervisor state at module load. -/
def initState : SupState := ⟨none, none, -1⟩

/-- const startFrom = currentIndex === -1 ? 0 : (currentIndex + 1) % redisConfig.length.
currentIndex is -1 or a valid array index, so the JS % agrees with Int.emod. -/
def startFrom (n : Nat) (currentIndex : Int) : Nat :=
  if currentIndex = -1 then 0 else ((currentIndex + 1) % (n : Int)).toNat

/-- The index sequence of one full do/while circle: index starts at sf and
steps by index = (index + 1) % n until it returns to sf, i.e. the body
runs for index = (sf + k) % n, k = 0, ..., n - 1. -/
def probeOrder (n sf : Nat) : List Nat :=
  (List.range n).map fun k => (sf + k) % n

/-- The loop body over the remaining circle: probe index i (open the
connection with its bounded retry budget, then ping raced against the
3000 ms timeout); on success stop, otherwise move on.  Returns the
indices actually probed and the successful index, if any. -/
def runProbes (probe : Nat → Bool) : List Nat → List Nat × Option Nat
  | [] => ([], none)
  | i :: rest =>
    if probe i then ([i], some i)
    else
      let r := runProbes probe rest
      (i :: r.1, r.2)

/-- What one call of connect() leaves behind: the new cells, the returned
boolean, and the list of indices whose candidates were probed. -/
structure ConnectResult where
  state : SupState
  ok : Bool
  probed : List Nat
  deriving DecidableEq

/-- async function connect(): probe candidates in circular order from
startFrom; on the first success install client = redis, config = conf,
currentIndex = index (closing any previous client) and return true; if
the circle completes with no success clear all three cells (client =
null; config = null; currentIndex = -1) and return false.  The
if (!conf) guard of the source only fires for an out-of-range index,
which the circular order never produces. -/
def connect (cfgs : List RedisConfig) (probe : Nat → Bool) (st : SupState) :
    ConnectResult :=
  let sf := startFrom cfgs.length st.currentIndex
  let r := runProbes probe (probeOrder cfgs.length sf)
  match r.2 with
  | some i =>
    match cfgs[i]? with
    | some conf => ⟨⟨some (connOf conf), some conf, (i : Int)⟩, true, r.1⟩
    | none => ⟨⟨none, none, -1⟩, false, r.1⟩
  | none => ⟨⟨none, none, -1⟩, false, r.1⟩

/-- The client.on("error", ...) handler: client = null, then await
connect() (which reads the still-set currentIndex).  The transition ends
only when the awaited connect resolves. -/
def errorHandler (cfgs : List RedisConfig) (probe : Nat → Bool) (st : SupState) :
    SupState :=
  (connect cfgs probe { st with client := none }).state

/-- The client.on("close", ...) handler: client = null; the reconnect is
only scheduled (setTimeout(() => connect(), 2000)), so the transition
itself ends here with config and currentIndex untouched. -/
def closeHandler (st : SupState) : SupState :=
  { st with client := none }

/-- The Supervisor State invariant of the spec, as a biconditional: the
current connection is set if and only if the current endpoint index is
set (not the -1 sentinel) and points at the endpoint that connection
was opened against. -/
def invariantB (cfgs : List RedisConfig) (st : SupState) : Bool :=
  match st.client with
  | none => st.currentIndex == -1
  | some h =>
    decide (0 ≤ st.currentIndex) &&
      match cfgs[st.currentIndex.toNat]? with
      | some conf => h == connOf conf
      | none => false

/-- The forward half of the invariant only: whenever a connection is set,
the index is set and points at the endpoint it was opened against. -/
def fwdInvariantB (cfgs : List RedisConfig) (st : SupState) : Bool :=
  match st.client with
  | some h =>
    decide (0 ≤ st.currentIndex) &&
      match cfgs[st.currentIndex.toNat]? with
      | some conf => h == connOf conf
      | none => false
  | none => true

/-! The windowed event counter (class FailoverStatsStore).  The remote
state it touches is the sorted set under the single fixed key
KEY = "live:requests" together with that key's absolute expiry time. -/

/-- The stats record getStats resolves with. -/
structure Stats where
  totalRequests : Nat
  requestsPerSecond : Nat
  deriving DecidableEq

/-- The backend state under the fixed key: the sorted set as a list of
(member, score) pairs plus the key's absolute expiry time in ms, if a
TTL is set.  An empty entry list is an absent key. -/
structure RedisStore where
  entries : List (String × Nat)
  expireAt : Option Nat
  deriving DecidableEq

/-- private readonly WINDOW_SIZE = 1000. -/
def WINDOW_SIZE : Nat := 1000

/-- Redis TTL semantics: a key whose expiry time has passed is gone before
any command observes it. -/
def purge (now : Nat) (s : RedisStore) : RedisStore :=
  match s.expireAt with
  | some e => if e ≤ now then ⟨[], none⟩ else s
  | none => s

/-- ZADD key score member: update the member's score if present, insert it
otherwise; an existing TTL is left alone. -/
def zadd (now score : Nat) (m : String) (s : RedisStore) : RedisStore :=
  let s := purge now s
  if s.entries.any (fun p => p.1 == m) then
    ⟨s.entries.map (fun p => if p.1 == m then (m, score) else p), s.expireAt⟩
  else
    ⟨s.entries ++ [(m, score)], s.expireAt⟩

/-- EXPIRE key secs: set the key's absolute expiry to now + secs seconds;
a no-op on an absent key. -/
def expire (now secs : Nat) (s : RedisStore) : RedisStore :=
  let s := purge now s
  if s.entries.isEmpty then s else ⟨s.entries, some (now + secs * 1000)⟩

/-- ZREMRANGEBYSCORE key lo hi: drop every member whose score lies in the
closed interval [lo, hi].  The bounds are JS numbers and may be
negative, so they are integers here. -/
def zremrangebyscore (now : Nat) (lo hi : Int) (s : RedisStore) : RedisStore :=
  let s := purge now s
  ⟨s.entries.filter (fun p => !decide (lo ≤ (p.2 : Int) ∧ (p.2 : Int) ≤ hi)),
    s.expireAt⟩

/-- ZCARD key: the number of members. -/
def zcard (now : Nat) (s : RedisStore) : Nat :=
  (purge now s).entries.length

/-- One backend behaviour for a single logRequest/getStats call: which of
the awaited client commands rejects.  A rejected command leaves the
store untouched and aborts the surrounding try block. -/
structure Faults where
  zaddThrows : Bool
  expireThrows : Bool
  zremThrows : Bool
  zcardThrows : Bool
  deriving DecidableEq

/-- The behaviour in which every backend command succeeds. -/
def noFaults : Faults := ⟨false, false, false, false⟩

/-- The member string appended by logRequest, with Math.random() supplied
as the disambiguator string: the template now-random. -/
def memberOf (now : Nat) (rand : String) : String :=
  toString now ++ "-" ++ rand

/-- async logRequest(): if client is null, log a debug line and return.
Otherwise try \x7b await zadd(KEY, now, member); await expire(KEY, 10) \x7d,
catching (and only logging) any error.  The result is the backend store
after the call and the outcome the caller's awaited promise sees. -/
def logRequest (client : Option ConnHandle) (f : Faults) (now : Nat)
    (rand : String) (s : RedisStore) : RedisStore × Except String Unit :=
  match client with
  | none => (s, Except.ok ())
  | some _ =>
    let m := memberOf now rand
    if f.zaddThrows then
      (s, Except.ok ())
    else
      let s1 := zadd now now m s
      if f.expireThrows then
        (s1, Except.ok ())
      else
        (expire now 10 s1, Except.ok ())

/-- async getStats(): if client is null return the offline reading
\x7btotalRequests: 0, requestsPerSecond: 0\x7d.  Otherwise try \x7b cutoff =
now - WINDOW_SIZE; await zremrangebyscore(KEY, 0, cutoff); count =
(await zcard(KEY)) || 0; return \x7bcount, count\x7d \x7d, catching any error
into the same offline reading. -/
def getStats (client : Option ConnHandle) (f : Faults) (now : Nat)
    (s : RedisStore) : RedisStore × Except String Stats :=
  match client with
  | none => (s, Except.ok ⟨0, 0⟩)
  | some _ =>
    if f.zremThrows then
      (s, Except.ok ⟨0, 0⟩)
    else
      let cutoff : Int := (now : Int) - (WINDOW_SIZE : Int)
      let s1 := zremrangebyscore now 0 cutoff s
      if f.zcardThrows then
        (s1, Except.ok ⟨0, 0⟩)
      else
        let count := zcard now s1
        (s1, Except.ok ⟨count, count⟩)

/-! Facts about the probing loop. -/

theorem runProbes_fst_take (probe : Nat → Bool) (l : List Nat) :
    (runProbes probe l).1 = l.take (runProbes probe l).1.length := by
  induction l with
  | nil => rfl
  | cons i rest ih =>
    cases hp : probe i
    · simp only [runProbes, hp, Bool.false_eq_true, if_false, List.length_cons,
        List.take_succ_cons, List.cons.injEq, true_and]
      exact ih
    · simp [runProbes, hp]

theorem runProbes_fst_length_le (probe : Nat → Bool) (l : List Nat) :
    (runProbes probe l).1.length ≤ l.length := by
  induction l with
  | nil => exact Nat.le_refl 0
  | cons i rest ih =>
    cases hp : probe i
    · simp only [runProbes, hp, Bool.false_eq_true, if_false, List.length_cons]
      omega
    · simp only [runProbes, hp, if_true, List.length_cons, List.length_nil]
      omega

theorem runProbes_fst_nodup (probe : Nat → Bool) (l : List Nat) (h : l.Nodup) :
    (runProbes probe l).1.Nodup := by
  have ht := runProbes_fst_take probe l
  rw [ht]
  exact h.sublist (List.take_sublist _ l)

theorem runProbes_snd_none (probe : Nat → Bool) (l : List Nat)
    (h : (runProbes probe l).2 = none) :
    (runProbes probe l).1 = l ∧ ∀ j ∈ l, probe j = false := by
  induction l with
  | nil => exact ⟨rfl, by simp⟩
  | cons i rest ih =>
    cases hp : probe i
    · simp only [runProbes, hp, Bool.false_eq_true, if_false] at h ⊢
      obtain ⟨h1, h2⟩ := ih h
      refine ⟨by rw [h1], ?_⟩
      intro j hj
      rcases List.mem_cons.mp hj with rfl | hj
      · exact hp
      · exact h2 j hj
    · simp [runProbes, hp] at h

theorem runProbes_snd_some (probe : Nat → Bool) (l : List Nat) (i : Nat)
    (h : (runProbes probe l).2 = some i) :
    probe i = true ∧
      ∃ pre, (runProbes probe l).1 = pre ++ [i] ∧ ∀ j ∈ pre, probe j = false := by
  induction l with
  | nil => simp [runProbes] at h
  | cons a rest ih =>
    cases hp : probe a
    · simp only [runProbes, hp, Bool.false_eq_true, if_false] at h ⊢
      obtain ⟨h1, pre, h2, h3⟩ := ih h
      refine ⟨h1, a :: pre, by rw [h2]; rfl, ?_⟩
      intro j hj
      rcases List.mem_cons.mp hj with rfl | hj
      · exact hp
      · exact h3 j hj
    · simp only [runProbes, hp, if_true] at h ⊢
      obtain rfl : a = i := by simpa using h
      exact ⟨hp, [], rfl, by simp⟩

theorem runProbes_snd_mem (probe : Nat → Bool) (l : List Nat) (i : Nat)
    (h : (runProbes probe l).2 = some i) : i ∈ l := by
  obtain ⟨-, pre, h2, -⟩ := runProbes_snd_some probe l i h
  have hm : i ∈ (runProbes probe l).1 := by simp [h2]
  rw [runProbes_fst_take probe l] at hm
  exact ((List.take_sublist _ l).subset) hm

theorem probeOrder_length (n sf : Nat) : (probeOrder n sf).length = n := by
  simp [probeOrder]

theorem probeOrder_mem_lt (n sf j : Nat) (h : j ∈ probeOrder n sf) : j < n := by
  simp only [probeOrder, List.mem_map, List.mem_range] at h
  obtain ⟨k, hk, rfl⟩ := h
  exact Nat.mod_lt _ (by omega)

theorem probeOrder_nodup (n sf : Nat) : (probeOrder n sf).Nodup := by
  refine List.Nodup.map_on ?_ (List.nodup_range n)
  intro x hx y hy hxy
  simp only [List.mem_range] at hx hy
  have hm : x ≡ y [MOD n] := Nat.ModEq.add_left_cancel' sf hxy
  have h2 : x % n = y % n := hm
  rwa [Nat.mod_eq_of_lt hx, Nat.mod_eq_of_lt hy] at h2

/-- Case analysis for one connect() call: either some probed index
succeeded (and its descriptor exists, the circle only producing
in-range indices), or the whole circle failed. -/
theorem connect_cases (cfgs : List RedisConfig) (probe : Nat → Bool) (st : SupState) :
    (∃ i conf,
        (runProbes probe
            (probeOrder cfgs.length (startFrom cfgs.length st.currentIndex))).2 = some i ∧
        cfgs[i]? = some conf ∧
        connect cfgs probe st =
          ⟨⟨some (connOf conf), some conf, (i : Int)⟩, true,
            (runProbes probe
              (probeOrder cfgs.length (startFrom cfgs.length st.currentIndex))).1⟩) ∨
    ((runProbes probe
        (probeOrder cfgs.length (startFrom cfgs.length st.currentIndex))).2 = none ∧
      connect cfgs probe st =
        ⟨⟨none, none, -1⟩, false,
          (runProbes probe
            (probeOrder cfgs.length (startFrom cfgs.length st.currentIndex))).1⟩) := by
  cases hr : (runProbes probe
      (probeOrder cfgs.length (startFrom cfgs.length st.currentIndex))).2 with
  | none =>
    right
    exact ⟨rfl, by unfold connect; simp only [hr]⟩
  | some i =>
    left
    have hi := runProbes_snd_mem _ _ _ hr
    have hlt := probeOrder_mem_lt _ _ _ hi
    have hconf : cfgs[i]? = some cfgs[i] := List.getElem?_eq_getElem hlt
    exact ⟨i, cfgs[i], rfl, hconf, by unfold connect; simp only [hr, hconf]⟩

/-- Helper for C5: whatever state a connect() call starts from, the state
it leaves behind satisfies the biconditional Supervisor State invariant
(either all three cells installed consistently, or all cleared). -/
theorem invariantB_connect (cfgs : List RedisConfig) (probe : Nat → Bool)
    (st : SupState) : invariantB cfgs (connect cfgs probe st).state = true := by
  rcases connect_cases cfgs probe st with ⟨i, conf, hr, hconf, hc⟩ | ⟨hr, hc⟩ <;>
    rw [hc]
  · simp only [invariantB]
    have ht : ((i : Int)).toNat = i := Int.toNat_natCast i
    rw [ht, hconf]
    simp [Int.natCast_nonneg i]
  · rfl

/-- C3: one connect() call probes candidates at most once each, in
circular order from the index after the last successful one (0 on the
first-ever call), stops at the first success, and never goes past one
full circle. -/
theorem connect_probes_one_circle (cfgs : List RedisConfig) (probe : Nat → Bool)
    (st : SupState) :
    ((connect cfgs probe st).probed =
        (probeOrder cfgs.length (startFrom cfgs.length st.currentIndex)).take
          (connect cfgs probe st).probed.length) ∧
    (connect cfgs probe st).probed.Nodup ∧
    (connect cfgs probe st).probed.length ≤ cfgs.length ∧
    ((connect cfgs probe st).ok = true →
      ∃ i pre, probe i = true ∧ (connect cfgs probe st).probed = pre ++ [i] ∧
        ∀ j ∈ pre, probe j = false) ∧
    ((connect cfgs probe st).ok = false →
      (connect cfgs probe st).probed =
          probeOrder cfgs.length (startFrom cfgs.length st.currentIndex) ∧
        ∀ j ∈ (connect cfgs probe st).probed, probe j = false) := by
  rcases connect_cases cfgs probe st with ⟨i, conf, hr, hconf, hc⟩ | ⟨hr, hc⟩ <;>
    rw [hc] <;> dsimp only
  · obtain ⟨hp, pre, hpre, hprefail⟩ := runProbes_snd_some probe _ i hr
    refine ⟨runProbes_fst_take probe _,
      runProbes_fst_nodup probe _ (probeOrder_nodup _ _), ?_, ?_, ?_⟩
    · calc (runProbes probe
              (probeOrder cfgs.length (startFrom cfgs.length st.currentIndex))).1.length
          ≤ (probeOrder cfgs.length (startFrom cfgs.length st.currentIndex)).length :=
            runProbes_fst_length_le probe _
        _ = cfgs.length := probeOrder_length _ _
    · exact fun _ => ⟨i, pre, hp, hpre, hprefail⟩
    · intro hfalse; cases hfalse
  · obtain ⟨hfull, hallfail⟩ := runProbes_snd_none probe _ hr
    refine ⟨runProbes_fst_take probe _,
      runProbes_fst_nodup probe _ (probeOrder_nodup _ _), ?_, ?_, ?_⟩
    · calc (runProbes probe
              (probeOrder cfgs.length (startFrom cfgs.length st.currentIndex))).1.length
          ≤ (probeOrder cfgs.length (startFrom cfgs.length st.currentIndex)).length :=
            runProbes_fst_length_le probe _
        _ = cfgs.length := probeOrder_length _ _
    · intro hfalse; cases hfalse
    · exact fun _ => ⟨hfull, fun j hj => hallfail j (hfull ▸ hj)⟩

/-- C4: a successful connect() leaves exactly the one new connection
current, with the stored index the index whose probe succeeded; a
full-circle failure clears the whole Supervisor State. -/
theorem connect_postcondition (cfgs : List RedisConfig) (probe : Nat → Bool)
    (st : SupState) :
    ((connect cfgs probe st).ok = true →
      ∃ i conf, cfgs[i]? = some conf ∧ probe i = true ∧
        (connect cfgs probe st).state =
          ⟨some (connOf conf), some conf, (i : Int)⟩) ∧
    ((connect cfgs probe st).ok = false →
      (connect cfgs probe st).state = ⟨none, none, -1⟩) := by
  rcases connect_cases cfgs probe st with ⟨i, conf, hr, hconf, hc⟩ | ⟨hr, hc⟩ <;>
    rw [hc] <;> dsimp only
  · obtain ⟨hp, -, -, -⟩ := runProbes_snd_some probe _ i hr
    refine ⟨fun _ => ⟨i, conf, hconf, hp, rfl⟩, ?_⟩
    intro hfalse; cases hfalse
  · refine ⟨?_, fun _ => rfl⟩
    intro hfalse; cases hfalse

/-- C5 (counterexample): the biconditional Supervisor State invariant is
not preserved by the close handler.  Starting from the state an actual
successful connect() installs (one candidate, probe succeeding), the
invariant holds; after the close handler fires (client = null, index
untouched, reconnect merely scheduled for 2000 ms later) it fails. -/
theorem closeHandler_breaks_invariant :
    invariantB [⟨"redis://a", "A", none⟩]
        (connect [⟨"redis://a", "A", none⟩] (fun _ => true) initState).state = true ∧
    invariantB [⟨"redis://a", "A", none⟩]
        (closeHandler
          (connect [⟨"redis://a", "A", none⟩] (fun _ => true) initState).state) = false := by
  exact ⟨by decide, by decide⟩

/-- C5 (amended): the invariant holds initially and is preserved by every
connect() outcome (success or full-circle failure) and by the
transport-error handler, whose transition ends with its awaited
reconnect; the close handler, whose reconnect is only scheduled,
preserves the forward half only — connection set implies the index is
set and points at the connection's endpoint. -/
theorem supervisor_state_invariant (cfgs : List RedisConfig) (probe : Nat → Bool)
    (st : SupState) :
    invariantB cfgs initState = true ∧
    invariantB cfgs (connect cfgs probe st).state = true ∧
    invariantB cfgs (errorHandler cfgs probe st) = true ∧
    fwdInvariantB cfgs (closeHandler st) = true := by
  exact ⟨rfl, invariantB_connect cfgs probe st,
    invariantB_connect cfgs probe { st with client := none }, rfl⟩

/-- C10: when a probing cycle fails completely, the saved index is back at
the -1 sentinel, so the next connect() — e.g. from the 5000 ms recovery
timer — starts at index 0 and probes the circle anchored at the head of
the candidate list. -/
theorem connect_failure_resets_index (cfgs : List RedisConfig)
    (probe probe2 : Nat → Bool) (st : SupState)
    (h : (connect cfgs probe st).ok = false) :
    (connect cfgs probe st).state = ⟨none, none, -1⟩ ∧
    startFrom cfgs.length (connect cfgs probe st).state.currentIndex = 0 ∧
    (connect cfgs probe2 (connect cfgs probe st).state).probed =
      (probeOrder cfgs.length 0).take
        (connect cfgs probe2 (connect cfgs probe st).state).probed.length := by
  rcases connect_cases cfgs probe st with ⟨i, conf, hr, hconf, hc⟩ | ⟨hr, hc⟩
  · rw [hc] at h; cases h
  · rw [hc]
    refine ⟨rfl, by simp [startFrom], ?_⟩
    have hs : startFrom cfgs.length ((-1 : Int)) = 0 := by simp [startFrom]
    rcases connect_cases cfgs probe2 ⟨none, none, -1⟩ with
      ⟨j, conf2, hr2, hconf2, hc2⟩ | ⟨hr2, hc2⟩ <;> rw [hc2] <;> dsimp only <;>
      rw [hs] at hr2 ⊢ <;> exact runProbes_fst_take probe2 _

/-! Facts about the single-key backend model. -/

theorem purge_expireAt_lt (now : Nat) (s : RedisStore) (e : Nat)
    (h : (purge now s).expireAt = some e) : now < e := by
  unfold purge at h
  cases hs : s.expireAt with
  | none => simp only [hs] at h; exact absurd h (by simp)
  | some e2 =>
    simp only [hs] at h
    by_cases he : e2 ≤ now
    · rw [if_pos he] at h
      exact absurd h (by simp)
    · rw [if_neg he, hs] at h
      injection h with h
      omega

theorem purge_of_lt (now : Nat) (l : List (String × Nat)) (ea : Option Nat)
    (h : ∀ e, ea = some e → now < e) :
    purge now ⟨l, ea⟩ = ⟨l, ea⟩ := by
  unfold purge
  cases ea with
  | none => rfl
  | some e =>
    have := h e rfl
    simp only []
    rw [if_neg (by omega)]

/-- Purging a key whose expiry lies in the future is a no-op. -/
theorem purge_some_of_lt (now e : Nat) (h : now < e) (l : List (String × Nat)) :
    purge now ⟨l, some e⟩ = ⟨l, some e⟩ := by
  unfold purge
  simp only []
  rw [if_neg (by omega)]

/-- Re-purging at the same instant is a no-op: whatever expiry a purged
store still carries lies in the future. -/
theorem purge_snd (now : Nat) (s : RedisStore) (l : List (String × Nat)) :
    purge now ⟨l, (purge now s).expireAt⟩ = ⟨l, (purge now s).expireAt⟩ :=
  purge_of_lt now l _ (fun e he => purge_expireAt_lt now s e he)

theorem zadd_expireAt (now score : Nat) (m : String) (s : RedisStore) :
    (zadd now score m s).expireAt = (purge now s).expireAt := by
  unfold zadd
  cases h : (purge now s).entries.any (fun p => p.1 == m) <;> simp [h]

/-- ZADD leaves the member present with the written score, whether it was
inserted or had its score updated. -/
theorem zadd_mem (now score : Nat) (m : String) (s : RedisStore) :
    (m, score) ∈ (zadd now score m s).entries := by
  unfold zadd
  cases ha : (purge now s).entries.any (fun p => p.1 == m)
  · simp [ha]
  · simp only [ha, if_true]
    obtain ⟨p, hp, hpm⟩ := List.any_eq_true.mp ha
    exact List.mem_map.mpr ⟨p, hp, by simp [hpm]⟩

/-- C1: both public operations are total from the caller's side: for every
connection state and every backend behaviour (any of the awaited
commands throwing included), logRequest resolves with void and getStats
resolves with a stats value — neither ever rejects. -/
theorem operations_never_reject (client : Option ConnHandle) (f : Faults)
    (now : Nat) (rand : String) (s : RedisStore) :
    (logRequest client f now rand s).2 = Except.ok () ∧
    ∃ v, (getStats client f now s).2 = Except.ok v := by
  constructor
  · cases client with
    | none => rfl
    | some h =>
      cases hz : f.zaddThrows <;> cases he : f.expireThrows <;>
        simp [logRequest, hz, he]
  · cases client with
    | none => exact ⟨⟨0, 0⟩, rfl⟩
    | some h =>
      cases hz : f.zremThrows
      · cases hc : f.zcardThrows
        · exact ⟨⟨zcard now (zremrangebyscore now 0 ((now : Int) - (WINDOW_SIZE : Int)) s),
            zcard now (zremrangebyscore now 0 ((now : Int) - (WINDOW_SIZE : Int)) s)⟩,
            by simp [getStats, hz, hc]⟩
        · exact ⟨⟨0, 0⟩, by simp [getStats, hz, hc]⟩
      · exact ⟨⟨0, 0⟩, by simp [getStats, hz]⟩

/-- Spec-side description of the markers that survive the trim of
getStats: the live collection's markers whose timestamp exceeds
cutoff = now - 1000. -/
def keptMarkers (now : Nat) (s : RedisStore) : List (String × Nat) :=
  (purge now s).entries.filter fun p => !decide ((p.2 : Int) ≤ (now : Int) - 1000)

/-- C2: with a current connection and succeeding backend commands,
getStats trims away exactly the markers with timestamp at most
cutoff = now - 1000 and returns the remaining cardinality as both
fields.  The trim range [0, cutoff] removes precisely those markers,
every timestamp being non-negative. -/
theorem getStats_trims_window (h : ConnHandle) (now : Nat) (s : RedisStore) :
    (getStats (some h) noFaults now s).1.entries = keptMarkers now s ∧
    (getStats (some h) noFaults now s).2 =
      Except.ok ⟨(keptMarkers now s).length, (keptMarkers now s).length⟩ := by
  have hfe : (purge now s).entries.filter
      (fun p => !decide ((0 : Int) ≤ (p.2 : Int) ∧
        (p.2 : Int) ≤ (now : Int) - (WINDOW_SIZE : Int))) = keptMarkers now s := by
    unfold keptMarkers
    refine List.filter_congr ?_
    intro p hp
    have h0 : (0 : Int) ≤ (p.2 : Int) := Int.natCast_nonneg _
    simp only [WINDOW_SIZE]
    congr 1
    exact decide_eq_decide.mpr (by constructor <;> [exact fun hh => hh.2;
      exact fun hh => ⟨h0, hh⟩])
  have hkey : getStats (some h) noFaults now s =
      (⟨keptMarkers now s, (purge now s).expireAt⟩,
        Except.ok ⟨(keptMarkers now s).length, (keptMarkers now s).length⟩) := by
    simp only [getStats, noFaults, Bool.false_eq_true, if_false, zremrangebyscore,
      zcard]
    rw [hfe, purge_snd now s (keptMarkers now s)]
  exact ⟨by rw [hkey], by rw [hkey]⟩

/-- C6: with no current connection, getStats returns the offline reading
and logRequest returns with the backend store untouched — the event is
dropped, not queued or buffered anywhere, and no error is raised. -/
theorem offline_defaults (f : Faults) (now : Nat) (rand : String) (s : RedisStore) :
    logRequest none f now rand s = (s, Except.ok ()) ∧
    getStats none f now s = (s, Except.ok ⟨0, 0⟩) :=
  ⟨rfl, rfl⟩

/-- C7 (counterexample): with a current connection but a backend whose
ZADD rejects, logRequest appends nothing and refreshes no TTL — the
error is caught and the marker is lost, so appending is not
unconditional on a connection existing. -/
theorem logRequest_fault_appends_nothing :
    ((logRequest (some ⟨"redis://a", false⟩) ⟨true, false, false, false⟩ 5000 "r"
        ⟨[], none⟩).1.entries.length = 0) ∧
    ((logRequest (some ⟨"redis://a", false⟩) ⟨true, false, false, false⟩ 5000 "r"
        ⟨[], none⟩).1.expireAt ≠ some (5000 + 10 * 1000)) := by
  exact ⟨rfl, by decide⟩

/-- C7 (amended): with a current connection, a fresh disambiguated member
and succeeding backend commands, logRequest appends exactly one marker
(score now, member now-random) to the collection and then sets the
key's absolute time-to-live to 10 seconds from now. -/
theorem logRequest_appends_marker (h : ConnHandle) (now : Nat) (rand : String)
    (s : RedisStore)
    (hfresh : ∀ p ∈ (purge now s).entries, p.1 ≠ memberOf now rand) :
    (logRequest (some h) noFaults now rand s).1 =
      ⟨(purge now s).entries ++ [(memberOf now rand, now)], some (now + 10 * 1000)⟩ ∧
    (logRequest (some h) noFaults now rand s).2 = Except.ok () := by
  have hany : (purge now s).entries.any
      (fun p => p.1 == memberOf now rand) = false := by
    rw [List.any_eq_false]
    intro p hp
    simp [hfresh p hp]
  have hzadd : zadd now now (memberOf now rand) s =
      ⟨(purge now s).entries ++ [(memberOf now rand, now)], (purge now s).expireAt⟩ := by
    unfold zadd
    simp [hany]
  refine ⟨?_, rfl⟩
  simp only [logRequest, noFaults]
  rw [hzadd]
  unfold expire
  rw [purge_snd]
  simp

/-- C8: a logRequest over a live connection followed by a getStats on the
same connection, with less than the 1000 ms window between the append
and the trim (so no expiry boundary is crossed either, the TTL being
10 s), reports at least one request. -/
theorem log_then_stats_counts (h : ConnHandle) (t t2 : Nat) (rand : String)
    (s : RedisStore) (h1 : t ≤ t2) (h2 : t2 < t + 1000) :
    ∃ v, (getStats (some h) noFaults t2
        (logRequest (some h) noFaults t rand s).1).2 = Except.ok v ∧
      1 ≤ v.totalRequests := by
  have hmem := zadd_mem t t (memberOf t rand) s
  have hne : (zadd t t (memberOf t rand) s).entries ≠ [] :=
    List.ne_nil_of_mem hmem
  -- the store logRequest leaves behind
  have hlog : (logRequest (some h) noFaults t rand s).1 =
      ⟨(zadd t t (memberOf t rand) s).entries, some (t + 10 * 1000)⟩ := by
    simp only [logRequest, noFaults]
    unfold expire
    rw [show zadd t t (memberOf t rand) s =
        ⟨(zadd t t (memberOf t rand) s).entries, (purge t s).expireAt⟩ from by
      rw [← zadd_expireAt t t (memberOf t rand) s]]
    rw [purge_snd]
    simp [hne]
  rw [hlog]
  -- getStats at t2 on that store
  have hT : t2 < t + 10 * 1000 := by omega
  have hkeep : ((memberOf t rand, t)) ∈
      (zadd t t (memberOf t rand) s).entries.filter
        (fun p => !decide ((0 : Int) ≤ (p.2 : Int) ∧
          (p.2 : Int) ≤ (t2 : Int) - (WINDOW_SIZE : Int))) := by
    refine List.mem_filter.mpr ⟨hmem, ?_⟩
    simp only [WINDOW_SIZE, Bool.not_eq_true']
    rw [decide_eq_false_iff_not]
    intro hcon
    omega
  have hstats : (getStats (some h) noFaults t2
      ⟨(zadd t t (memberOf t rand) s).entries, some (t + 10 * 1000)⟩).2 =
      Except.ok
        ⟨((zadd t t (memberOf t rand) s).entries.filter
            (fun p => !decide ((0 : Int) ≤ (p.2 : Int) ∧
              (p.2 : Int) ≤ (t2 : Int) - (WINDOW_SIZE : Int)))).length,
          ((zadd t t (memberOf t rand) s).entries.filter
            (fun p => !decide ((0 : Int) ≤ (p.2 : Int) ∧
              (p.2 : Int) ≤ (t2 : Int) - (WINDOW_SIZE : Int)))).length⟩ := by
    simp only [getStats, noFaults, Bool.false_eq_true, if_false, zremrangebyscore,
      zcard]
    rw [purge_some_of_lt t2 (t + 10 * 1000) hT,
      purge_some_of_lt t2 (t + 10 * 1000) hT]
  exact ⟨_, hstats, List.length_pos.mpr (List.ne_nil_of_mem hkeep)⟩

/-- C9: every stats value getStats ever resolves with — connected, offline
or caught-error path — has requestsPerSecond equal to totalRequests. -/
theorem stats_fields_equal (client : Option ConnHandle) (f : Faults) (now : Nat)
    (s : RedisStore) (v : Stats)
    (h : (getStats client f now s).2 = Except.ok v) :
    v.requestsPerSecond = v.totalRequests := by
  cases client with
  | none =>
    simp only [getStats, Except.ok.injEq] at h
    rw [← h]
  | some hd =>
    cases hz : f.zremThrows
    · cases hc : f.zcardThrows
      · simp only [getStats, hz, hc, Bool.false_eq_true, if_false,
          Except.ok.injEq] at h
        rw [← h]
      · simp only [getStats, hz, hc, Bool.false_eq_true, if_false, if_true,
          Except.ok.injEq] at h
        rw [← h]
    · simp only [getStats, hz, if_true, Except.ok.injEq] at h
      rw [← h]

/-- Witness for C7 (amended) at a concrete input: empty store, fresh
member, time 5, disambiguator "r". -/
theorem logRequest_appends_marker_witness :
    (∀ p ∈ (purge 5 (⟨[], none⟩ : RedisStore)).entries, p.1 ≠ memberOf 5 "r") ∧
    ((logRequest (some ⟨"redis://a", false⟩) noFaults 5 "r" ⟨[], none⟩).1 =
        ⟨(purge 5 (⟨[], none⟩ : RedisStore)).entries ++ [(memberOf 5 "r", 5)],
          some (5 + 10 * 1000)⟩ ∧
      (logRequest (some ⟨"redis://a", false⟩) noFaults 5 "r" ⟨[], none⟩).2 =
        Except.ok ()) :=
  ⟨by decide,
    logRequest_appends_marker ⟨"redis://a", false⟩ 5 "r" ⟨[], none⟩ (by decide)⟩

/-- Witness for C8 at a concrete input: log at t = 0, read at t2 = 0, well
inside the window. -/
theorem log_then_stats_counts_witness :
    ((0 : Nat) ≤ 0 ∧ (0 : Nat) < 0 + 1000) ∧
    ∃ v, (getStats (some ⟨"redis://a", false⟩) noFaults 0
        (logRequest (some ⟨"redis://a", false⟩) noFaults 0 "r" ⟨[], none⟩).1).2 =
      Except.ok v ∧ 1 ≤ v.totalRequests :=
  ⟨⟨by decide, by decide⟩,
    log_then_stats_counts ⟨"redis://a", false⟩ 0 0 "r" ⟨[], none⟩ (by decide)
      (by decide)⟩

/-- Witness for C9 at a concrete input: the offline path. -/
theorem stats_fields_equal_witness :
    ((getStats none noFaults 0 ⟨[], none⟩).2 = Except.ok ⟨0, 0⟩) ∧
    (Stats.mk 0 0).requestsPerSecond = (Stats.mk 0 0).totalRequests :=
  ⟨rfl, stats_fields_equal none noFaults 0 ⟨[], none⟩ ⟨0, 0⟩ rfl⟩

/-- Witness for C10 at a concrete input: one unreachable candidate, both
cycles failing. -/
theorem connect_failure_resets_index_witness :
    ((connect [⟨"redis://a", "A", none⟩] (fun _ => false) initState).ok = false) ∧
    ((connect [⟨"redis://a", "A", none⟩] (fun _ => false) initState).state =
        ⟨none, none, -1⟩ ∧
      startFrom ([⟨"redis://a", "A", none⟩] : List RedisConfig).length
        (connect [⟨"redis://a", "A", none⟩] (fun _ => false)
          initState).state.currentIndex = 0 ∧
      (connect [⟨"redis://a", "A", none⟩] (fun _ => false)
          (connect [⟨"redis://a", "A", none⟩] (fun _ => false) initState).state).probed =
        (probeOrder ([⟨"redis://a", "A", none⟩] : List RedisConfig).length 0).take
          (connect [⟨"redis://a", "A", none⟩] (fun _ => false)
            (connect [⟨"redis://a", "A", none⟩] (fun _ => false)
              initState).state).probed.length) :=
  ⟨by decide,
    connect_failure_resets_index [⟨"redis://a", "A", none⟩] (fun _ => false)
      (fun _ => false) initState (by decide)⟩

end StatsStore
